import Mathlib

/-!
A shallow embedding of the CarbonRepo reconciliation and verification engine
(`configmanager.py`, `generate2.py`) together with proofs of the testable
properties stated in the specification.

Python strings are modelled as `String`/`List Char`, bytes as `Nat` (values
below 256), dictionaries as association lists, and fallible operations as
`Except`/`Option` values.  Network responses are passed in explicitly as
environment data, so every worker becomes a pure function of its inputs and
the environment's responses.
-/

namespace CarbonRepo

/-! ### Python string primitives used by the annotation parsers -/

def isWS (c : Char) : Bool := c.isWhitespace

/-- Python `s.lstrip()` on a character list. -/
def lstripL (cs : List Char) : List Char := cs.dropWhile isWS

/-- Python `s.rstrip()` on a character list. -/
def rstripL (cs : List Char) : List Char := (cs.reverse.dropWhile isWS).reverse

/-- Python `s.strip()` on a character list. -/
def stripL (cs : List Char) : List Char := rstripL (lstripL cs)

/-- Python `s.split(":", 1)[1]`: everything after the first colon
(meaningful only when a colon is present, which callers check first). -/
def afterFirstColon (cs : List Char) : List Char :=
  (cs.dropWhile (fun c => c ≠ ':')).drop 1

/-- Python `s.split(" @")[0]`: the part before the first occurrence of
the two-character pattern `" @"` (the whole string if absent). -/
def takeBeforeSpAt : List Char → List Char
  | [] => []
  | [c] => [c]
  | c :: d :: rest => if c = ' ' ∧ d = '@' then [] else c :: takeBeforeSpAt (d :: rest)

/-- Helper for `pySplitWs`: `cur` is the reversed current token. -/
def pySplitWsAux (cur : List Char) : List Char → List (List Char)
  | [] => if cur = [] then [] else [cur.reverse]
  | c :: rest =>
    if isWS c then
      if cur = [] then pySplitWsAux [] rest else cur.reverse :: pySplitWsAux [] rest
    else pySplitWsAux (c :: cur) rest

/-- Python `s.split()`: split on whitespace runs, dropping empty tokens. -/
def pySplitWs (cs : List Char) : List (List Char) := pySplitWsAux [] cs

/-- The SHA extraction of `_check_updates_worker` (configmanager.py:698):
`old_comment.split(":", 1)[1].strip().split(" @")[0].strip()` when the
comment contains a colon, `None` otherwise.  (The `except` fallback on
lines 700-702 is unreachable: the guarded expression cannot raise.) -/
def extractShaChars (cs : List Char) : Option (List Char) :=
  if cs.contains ':' then some (stripL (takeBeforeSpAt (stripL (afterFirstColon cs))))
  else none

/-- String-level wrapper of `extractShaChars`. -/
def extract_sha (s : String) : Option String := (extractShaChars s.data).map List.asString

/-- The SHA extraction of `_update_repo_worker` (configmanager.py:574):
`old_comment.split()[3] if old_comment else None`.  An out-of-range
subscript is an uncaught `IndexError`, modelled as `.error`. -/
def update_worker_extract (s : String) : Except String (Option String) :=
  if s = "" then .ok none
  else
    match (pySplitWs s.data)[3]? with
    | some t => .ok (some t.asString)
    | none => .error "IndexError"

/-- Python `s.lower()` (the SHAs compared are ASCII, where `Char.toLower`
agrees with Python's `str.lower`). -/
def pyLower (s : String) : String := (s.data.map Char.toLower).asString

/-- Python `s.startswith(p)`. -/
def pyStartsWith (s p : String) : Bool := s.data.take p.data.length == p.data

/-- Python truthiness of a string: nonempty. -/
def pyTruthy (s : String) : Bool := s != ""

/-- Python truthiness of an optional string (`None` and `""` are falsy). -/
def pyTruthyOpt : Option String → Bool
  | none => false
  | some s => pyTruthy s

/-- The spec's commit-identifier normalization rule, named `is_same_commit`
by the specification: case-insensitively equal, or one a prefix of the
other.  (In the code this appears negated at configmanager.py:711.) -/
def is_same_commit (a b : String) : Bool :=
  pyLower a == pyLower b || pyStartsWith b a || pyStartsWith a b

/-! ### The drift reconciliation pass (`_check_updates_worker`) -/

/-- Result of `_fetch_latest_commit_info` (the `.get` chain defaults each
field to the empty string when the response lacks it). -/
structure CommitInfo where
  sha : String
  date : String
  message : String
deriving DecidableEq

/-- One tracked item's fetch either returns commit info or raises. -/
inductive FetchResult where
  | ok (info : CommitInfo)
  | raise (msg : String)
deriving DecidableEq

/-- One config entry together with the environment's response for it. -/
structure CheckItem where
  repo : String
  comment : String
  fetch : FetchResult
deriving DecidableEq

/-- The transient record stored in `self.outdated_repos[repo]`. -/
structure DriftRecord where
  old_sha : String
  new_sha : String
  commit_date : String
  message : String
  index : Nat
deriving DecidableEq

/-- Terminal per-item state of the reconciliation pass. -/
inductive ItemStatus where
  | upToDate
  | outdated (r : DriftRecord)
  | checkError (msg : String)
deriving DecidableEq

/-- Per-item classification of `_check_updates_worker` (configmanager.py:692-728),
transcribing the nested conditionals literally. -/
def classifyItem (idx : Nat) (it : CheckItem) : ItemStatus :=
  match it.fetch with
  | .raise msg => .checkError msg
  | .ok info =>
    match extract_sha it.comment with
    | none => .upToDate
    | some o =>
      if pyTruthy o && pyTruthy info.sha && o != info.sha then
        if !(pyLower o == pyLower info.sha) && !(pyStartsWith info.sha o)
            && !(pyStartsWith o info.sha) then
          .outdated ⟨o, info.sha, info.date, info.message, idx⟩
        else .upToDate
      else .upToDate

/-- Aggregate state of one reconciliation pass: the three counters and the
`outdated_repos` dictionary (as an association list in insertion order). -/
structure PassState where
  upToDate : Nat
  outdated : Nat
  errors : Nat
  records : List (String × DriftRecord)
deriving DecidableEq

/-- Python dict assignment `d[k] = v`: replace in place if the key exists,
append otherwise. -/
def dictInsert (d : List (String × DriftRecord)) (k : String) (v : DriftRecord) :
    List (String × DriftRecord) :=
  if d.any (fun p => p.1 == k) then d.map (fun p => if p.1 == k then (k, v) else p)
  else d ++ [(k, v)]

/-- One loop iteration of `_check_updates_worker`: exactly one counter is
incremented, and an outdated item is recorded in the dictionary. -/
def stepItem (i : Nat) (s : PassState) (it : CheckItem) : PassState :=
  match classifyItem i it with
  | .upToDate => { s with upToDate := s.upToDate + 1 }
  | .checkError _ => { s with errors := s.errors + 1 }
  | .outdated r => { s with outdated := s.outdated + 1, records := dictInsert s.records it.repo r }

/-- The loop of `_check_updates_worker`, threading the enumeration index. -/
def runPass : Nat → PassState → List CheckItem → PassState
  | _, s, [] => s
  | i, s, it :: rest => runPass (i + 1) (stepItem i s it) rest

/-- A whole reconciliation pass: counters start at zero and
`self.outdated_repos` is cleared before the loop (configmanager.py:680). -/
def check_updates_worker (items : List CheckItem) : PassState :=
  runPass 0 ⟨0, 0, 0, []⟩ items

/-- The spec's notion of a genuinely drifted item: fetch succeeded, both
SHAs present (truthy), and not the same under the normalization rule. -/
def genuinelyDrifted (it : CheckItem) : Bool :=
  match it.fetch, extract_sha it.comment with
  | .ok info, some o => pyTruthy o && pyTruthy info.sha && !(is_same_commit o info.sha)
  | _, _ => false

/-! ### SHA-256, the streaming hasher behind `fetch_stream_hash` (generate2.py:40-56)
and `fetch_asset_hash` (configmanager.py:61-76).

`hashlib.sha256` is modelled byte-at-a-time: the context holds the current
hash words, the unprocessed buffer (fewer than 64 bytes) and the byte count;
`update` folds bytes into the context, compressing each complete 64-byte
block (FIPS 180-4).  Words are `Nat` reduced modulo `2 ^ 32`. -/

/-- Reduce to a 32-bit word. -/
def w32 (n : Nat) : Nat := n % 4294967296

/-- Right-rotation of a 32-bit word (arithmetic formulation). -/
def rotr (n x : Nat) : Nat := x / 2 ^ n + x % 2 ^ n * 2 ^ (32 - n)

/-- Right-shift of a 32-bit word. -/
def shr (n x : Nat) : Nat := x / 2 ^ n

def bsig0 (x : Nat) : Nat := rotr 2 x ^^^ rotr 13 x ^^^ rotr 22 x

def bsig1 (x : Nat) : Nat := rotr 6 x ^^^ rotr 11 x ^^^ rotr 25 x

def ssig0 (x : Nat) : Nat := rotr 7 x ^^^ rotr 18 x ^^^ shr 3 x

def ssig1 (x : Nat) : Nat := rotr 17 x ^^^ rotr 19 x ^^^ shr 10 x

def chf (x y z : Nat) : Nat := x &&& y ^^^ (4294967295 - w32 x) &&& z

def majf (x y z : Nat) : Nat := x &&& y ^^^ x &&& z ^^^ y &&& z

/-- The 64 SHA-256 round constants. -/
def sha256K : List Nat :=
  [1116352408, 1899447441, 3049323471, 3921009573,
   961987163, 1508970993, 2453635748, 2870763221,
   3624381080, 310598401, 607225278, 1426881987,
   1925078388, 2162078206, 2614888103, 3248222580,
   3835390401, 4022224774, 264347078, 604807628,
   770255983, 1249150122, 1555081692, 1996064986,
   2554220882, 2821834349, 2952996808, 3210313671,
   3336571891, 3584528711, 113926993, 338241895,
   666307205, 773529912, 1294757372, 1396182291,
   1695183700, 1986661051, 2177026350, 2456956037,
   2730485921, 2820302411, 3259730800, 3345764771,
   3516065817, 3600352804, 4094571909, 275423344,
   430227734, 506948616, 659060556, 883997877,
   958139571, 1322822218, 1537002063, 1747873779,
   1955562222, 2024104815, 2227730452, 2361852424,
   2428436474, 2756734187, 3204031479, 3329325298]

/-- One extension step of the message schedule. -/
def scheduleStep (w : List Nat) : List Nat :=
  let n := w.length
  w ++ [w32 (ssig1 (w.getD (n - 2) 0) + w.getD (n - 7) 0 + ssig0 (w.getD (n - 15) 0)
        + w.getD (n - 16) 0)]

/-- Extend the 16 block words to the 64 schedule words. -/
def schedule (m : List Nat) : List Nat :=
  (List.range 48).foldl (fun w _ => scheduleStep w) m

/-- One compression round on the eight working variables. -/
def roundStep (s : List Nat) (kw : Nat) : List Nat :=
  match s with
  | [a, b, c, d, e, f, g, h] =>
    let t1 := w32 (h + bsig1 e + chf e f g + kw)
    let t2 := w32 (bsig0 a + majf a b c)
    [w32 (t1 + t2), a, b, c, w32 (d + t1), e, f, g]
  | other => other

/-- The SHA-256 compression function on one 16-word block. -/
def compress (h : List Nat) (block : List Nat) : List Nat :=
  let kw := List.zipWith (fun k x => w32 (k + x)) sha256K (schedule block)
  List.zipWith (fun a b => w32 (a + b)) h (kw.foldl roundStep h)

/-- Big-endian grouping of bytes into 32-bit words. -/
def bytesToWords : List Nat → List Nat
  | b0 :: b1 :: b2 :: b3 :: rest => (((b0 * 256 + b1) * 256 + b2) * 256 + b3) :: bytesToWords rest
  | _ => []

/-- The incremental hashing context of a `hashlib.sha256()` object. -/
structure Sha256Ctx where
  h : List Nat
  buf : List Nat
  len : Nat
deriving DecidableEq

/-- A fresh `hashlib.sha256()` object. -/
def sha256New : Sha256Ctx :=
  ⟨[1779033703, 3144134277, 1013904242, 2773480762,
    1359893119, 2600822924, 528734635, 1541459225], [], 0⟩

/-- Feed one byte: buffer it, compressing when a 64-byte block completes. -/
def absorbByte (ctx : Sha256Ctx) (b : Nat) : Sha256Ctx :=
  let buf := ctx.buf ++ [b]
  if buf.length = 64 then ⟨compress ctx.h (bytesToWords buf), [], ctx.len + 1⟩
  else ⟨ctx.h, buf, ctx.len + 1⟩

/-- `sha256.update(bs)`. -/
def sha256Update (ctx : Sha256Ctx) (bs : List Nat) : Sha256Ctx := bs.foldl absorbByte ctx

/-- The 8-byte big-endian encoding of the message bit length. -/
def lenBytes64 (n : Nat) : List Nat :=
  [n / 2 ^ 56 % 256, n / 2 ^ 48 % 256, n / 2 ^ 40 % 256, n / 2 ^ 32 % 256,
   n / 2 ^ 24 % 256, n / 2 ^ 16 % 256, n / 2 ^ 8 % 256, n % 256]

/-- Final hash words: append the 0x80 marker, zero padding to 56 mod 64,
and the bit length, then take the hash state. -/
def sha256FinalWords (ctx : Sha256Ctx) : List Nat :=
  let pad := 128 :: (List.replicate ((119 - ctx.len % 64) % 64) 0 ++ lenBytes64 (8 * ctx.len))
  (sha256Update ctx pad).h

def hexChar (n : Nat) : Char := if n < 10 then Char.ofNat (48 + n) else Char.ofNat (87 + n)

def wordToHex (w : Nat) : List Char :=
  [hexChar (w / 2 ^ 28 % 16), hexChar (w / 2 ^ 24 % 16), hexChar (w / 2 ^ 20 % 16),
   hexChar (w / 2 ^ 16 % 16), hexChar (w / 2 ^ 12 % 16), hexChar (w / 2 ^ 8 % 16),
   hexChar (w / 2 ^ 4 % 16), hexChar (w % 16)]

/-- `sha256.hexdigest()`. -/
def hexdigest (ctx : Sha256Ctx) : String :=
  ((sha256FinalWords ctx).foldr (fun w acc => wordToHex w ++ acc) []).asString

/-- Hashing a whole byte sequence in one `update` call. -/
def sha256Hex (data : List Nat) : String := hexdigest (sha256Update sha256New data)

/-- `resp.content.iter_chunked n` (fuel-driven splitting into chunks of `n`). -/
def chunksGo {α : Type} (n : Nat) : Nat → List α → List (List α)
  | 0, _ => []
  | _ + 1, [] => []
  | fuel + 1, l => l.take n :: chunksGo n fuel (l.drop n)

/-- Split a list into successive chunks of size `n` (last one shorter). -/
def chunksOf {α : Type} (n : Nat) (l : List α) : List (List α) := chunksGo n l.length l

/-- `fetch_stream_hash` (generate2.py:40-56): stream the body in chunks of
`chunkSize` (1024 in the source), folding each chunk into the accumulator,
then return the hex digest. -/
def fetch_stream_hash (chunkSize : Nat) (data : List Nat) : String :=
  hexdigest ((chunksOf chunkSize data).foldl sha256Update sha256New)

/-! ### generate2.py: per-asset verification and the batch entry point -/

/-- One release asset (name and `browser_download_url`). -/
structure GAsset where
  name : String
  url : String
deriving DecidableEq

/-- The environment's behaviour when streaming one asset: the full byte
sequence, or an exception raised mid-transfer (also covering a non-200
status, which `fetch_stream_hash` turns into a raise). -/
inductive StreamOutcome where
  | bytes (bs : List Nat)
  | raise (msg : String)
deriving DecidableEq

/-- The per-asset result dictionary built by `download_asset_and_hash`. -/
structure AssetDownload where
  name : String
  url : String
  currentHash : Option String
  validHash : Option String
  hashMatch : Option Bool
  error : Option String
deriving DecidableEq

/-- `download_asset_and_hash` (generate2.py:122-140): hash the streamed
bytes; on any exception return a record with `hashMatch = False` and the
error text, so the exception never crosses the per-asset boundary.
(`expected_hash == h if expected_hash else None`: a missing or empty
expected digest gives `hashMatch = None`.) -/
def download_asset_and_hash (asset : GAsset) (stream : StreamOutcome)
    (expected : Option String) : AssetDownload :=
  match stream with
  | .bytes bs =>
    let h := fetch_stream_hash 1024 bs
    { name := asset.name, url := asset.url, currentHash := some h, validHash := expected,
      hashMatch := match expected with
        | some e => if pyTruthy e then some (e == h) else none
        | none => none,
      error := none }
  | .raise msg =>
    { name := asset.name, url := asset.url, currentHash := none, validHash := expected,
      hashMatch := some false, error := some msg }

/-- Python `dict.get(k)` over the config's per-repo assets mapping.  A key
stored with a `null` value and an absent key both yield `none`, exactly as
both yield Python `None`. -/
def assetsGet (m : List (String × Option String)) (k : String) : Option String :=
  match m.find? (fun p => p.1 == k) with
  | some p => p.2
  | none => none

/-- The `asyncio.gather` over the latest release's assets
(generate2.py:158-164): one result per asset, in submission order. -/
def batchDownload (spec : List (String × Option String))
    (assets : List (GAsset × StreamOutcome)) : List AssetDownload :=
  assets.map (fun p => download_asset_and_hash p.1 p.2 (assetsGet spec p.1.name))

/-- Environment for one `process_repo` call: an exception raised anywhere
outside the per-asset boundary (metadata, releases, contributors, social
preview), and the streamed assets of the latest release. -/
structure RepoEnv where
  processException : Option String
  assets : List (GAsset × StreamOutcome)
deriving DecidableEq

/-- One config entry as `process_repo` sees it. -/
structure ModEntry where
  repo : String
  assetSpec : List (String × Option String)
deriving DecidableEq

/-- The `error` flag returned by `process_repo` (generate2.py:142-212):
true when the item raised (caught at generate2.py:208, returning
`(None, True)`), or when the validation loop (generate2.py:179-189) finds a
truthy expected digest differing from the download's `currentHash`. -/
def process_repo_error (entry : ModEntry) (env : RepoEnv) : Bool :=
  match env.processException with
  | some _ => true
  | none =>
    (batchDownload entry.assetSpec env.assets).any (fun d =>
      match assetsGet entry.assetSpec d.name with
      | some e => pyTruthy e && d.currentHash != some e
      | none => false)

/-- `main` (generate2.py:214-266): `error_found` is the disjunction of the
per-item error flags, and the process exits with `sys.exit(1)` iff it is
set (falling off `main` otherwise exits with status 0). -/
def mainExitCode (runs : List (ModEntry × RepoEnv)) : Nat :=
  if runs.any (fun r => process_repo_error r.1 r.2) then 1 else 0

/-- The digest a run of the stream observes (none when it raised). -/
def observedHash : StreamOutcome → Option String
  | .bytes bs => some (fetch_stream_hash 1024 bs)
  | .raise _ => none

/-- The spec-level mismatch notion for one item: some asset has a recorded
(truthy) expected digest that differs from the observed digest (a failed
stream observes none, so a recorded digest differs). -/
def digestMismatch (entry : ModEntry) (env : RepoEnv) : Bool :=
  env.assets.any (fun p =>
    match assetsGet entry.assetSpec p.1.name with
    | some e => pyTruthy e && observedHash p.2 != some e
    | none => false)

/-! ### The concurrency-limiter discipline of `process_repo` -/

/-- Observable limiter events: semaphore acquire/release and network calls. -/
inductive SemOp where
  | acq
  | rel
  | net (tag : String)
deriving DecidableEq

/-- Which steps of the try body raise (each flag cuts the trace there). -/
structure LimiterEnv where
  repoDataRaises : Bool
  releasesLatestRaises : Bool
  releasesAllRaises : Bool
  assetCount : Nat
deriving DecidableEq

/-- Calls issued once the releases are known: the per-asset downloads
(failures caught inside `download_asset_and_hash`, so all are issued),
then the contributors and social-preview fetches. -/
def netCallsAfterReleases (n : Nat) : List SemOp :=
  (List.range n).map (fun i => SemOp.net ("asset" ++ toString i))
    ++ [SemOp.net "contributors", SemOp.net "social"]

/-- The network calls of the `try` body of `process_repo`, cut where the
environment raises (`get_releases` falls back to the all-releases call when
the latest-release call raises, generate2.py:98-109). -/
def tryBodyTrace (e : LimiterEnv) : List SemOp :=
  SemOp.net "repo_data" ::
    (if e.repoDataRaises then []
     else SemOp.net "releases_latest" ::
       (if e.releasesLatestRaises then
          SemOp.net "releases_all" ::
            (if e.releasesAllRaises then [] else netCallsAfterReleases e.assetCount)
        else netCallsAfterReleases e.assetCount))

/-- The limiter trace of one `process_repo` call (generate2.py:142-212):
`keys` are the keys of the `mod` dict (`list(mod.keys())[0]` raises before
the `try` when empty, so no operation runs); otherwise the semaphore is
acquired first, the try body's network calls follow, and the `finally`
releases on every exit path. -/
def process_repo_trace (keys : List String) (e : LimiterEnv) : List SemOp :=
  match keys with
  | [] => []
  | _ :: _ => SemOp.acq :: (tryBodyTrace e ++ [SemOp.rel])

/-! ### The change summarizer (`_show_repo_diff`, configmanager.py:825-959) -/

/-- Python `s[:8]`. -/
def pyTake8 (s : String) : String := (s.data.take 8).asString

/-- Python `s.split('\n')[0]`. -/
def firstLine (s : String) : String := (s.data.takeWhile (fun c => c ≠ '\n')).asString

/-- One commit resource response (the fields the summarizer reads,
each defaulted to the code's fallback when absent). -/
structure CommitJson where
  date : String
  message : String
deriving DecidableEq

/-- One entry of the compare resource's commit list. -/
structure CompareCommit where
  sha : String
  date : String
  author : String
  message : String
deriving DecidableEq

/-- One entry of the compare resource's file list. -/
structure CompareFile where
  status : String
  filename : String
  additions : Nat
  deletions : Nat
  patch : String
deriving DecidableEq

/-- The compare resource body (`commits`/`files` keys may be absent). -/
structure CompareData where
  status : String
  totalCommits : Nat
  commits : Option (List CompareCommit)
  files : Option (List CompareFile)
deriving DecidableEq

/-- An HTTP interaction: parsed 200 body, non-200 status with body text, or
an exception raised during the request. -/
inductive HttpResp (α : Type) where
  | ok (data : α)
  | status (code : Nat) (body : String)
  | raise (msg : String)
deriving DecidableEq

/-- Environment for one summarization: the compare response and the two
per-commit responses used by the fallback. -/
structure DiffEnv where
  compare : HttpResp CompareData
  oldCommit : HttpResp CommitJson
  newCommit : HttpResp CommitJson
deriving DecidableEq

/-- What the summarizer does: push a `DiffScreen`, or notify an error and
stop without a screen. -/
inductive DiffResult where
  | screen (title text : String)
  | errorNote (msg : String)
deriving DecidableEq

/-- The screen title used by both paths. -/
def diffTitle (repo old new : String) : String :=
  "Diff " ++ repo ++ ": " ++ pyTake8 old ++ " → " ++ pyTake8 new

/-- The reduced report of the fallback path (configmanager.py:909-951). -/
def renderAltText (repo old new : String) (oc nc : CommitJson) : String :=
  String.intercalate "\n"
    ["Changes between " ++ pyTake8 old ++ " and " ++ pyTake8 new,
     "Note: Direct comparison not available. Showing summary information.\n",
     "OLD COMMIT: " ++ pyTake8 old ++ " (" ++ oc.date ++ ")",
     "Message: " ++ firstLine oc.message,
     "",
     "NEW COMMIT: " ++ pyTake8 new ++ " (" ++ nc.date ++ ")",
     "Message: " ++ firstLine nc.message,
     "",
     "To see detailed changes, visit:",
     "https://github.com/" ++ repo ++ "/compare/" ++ old ++ "..." ++ new,
     "",
     "Or clone the mods and use:",
     "git diff " ++ old ++ " " ++ new]

/-- The full report of the primary path (configmanager.py:853-891). -/
def renderCompareText (old new : String) (cd : CompareData) : String :=
  let head :=
    ["Comparing " ++ pyTake8 old ++ " to " ++ pyTake8 new ++ " - " ++ cd.status,
     "Total changes: " ++ toString cd.totalCommits ++ " commit(s)",
     "Files changed: " ++ toString (cd.files.getD []).length,
     ""]
  let commitPart :=
    match cd.commits with
    | none => []
    | some cs =>
      "COMMITS:" ::
        cs.map (fun c => pyTake8 c.sha ++ " " ++ c.date ++ " " ++ c.author ++ ": "
          ++ firstLine c.message) ++ [""]
  let filePart :=
    match cd.files with
    | none => []
    | some fs =>
      "CHANGED FILES:" ::
        fs.map (fun f => f.status ++ ": " ++ f.filename ++ " (+" ++ toString f.additions
          ++ " -" ++ toString f.deletions ++ ")")
        ++ ["\nDIFF DETAILS:"]
        ++ fs.foldr (fun f acc =>
            if pyTruthy f.patch then
              ("\n--- " ++ f.filename) :: ("+++ " ++ f.filename) :: f.patch :: acc
            else acc) []
  String.intercalate "\n" (head ++ commitPart ++ filePart)

/-- The `try` body of `_show_repo_diff_alternative` (configmanager.py:905-954);
`.error` is an exception in flight inside the body. -/
def showRepoDiffAltBody (repo old new : String) (env : DiffEnv) : Except String DiffResult :=
  match env.oldCommit with
  | .raise m => .error m
  | .status c _ => .ok (.errorNote ("Failed to fetch old commit: " ++ toString c))
  | .ok oc =>
    match env.newCommit with
    | .raise m => .error m
    | .status c _ => .ok (.errorNote ("Failed to fetch new commit: " ++ toString c))
    | .ok nc => .ok (.screen (diffTitle repo old new) (renderAltText repo old new oc nc))

/-- `_show_repo_diff_alternative` (configmanager.py:903-959): its `except`
turns any in-flight exception into a non-fatal error notification. -/
def show_repo_diff_alternative (repo old new : String) (env : DiffEnv) : DiffResult :=
  match showRepoDiffAltBody repo old new env with
  | .ok r => r
  | .error m => .errorNote ("Error fetching commit information: " ++ m)

/-- `_show_repo_diff` (configmanager.py:825-901): validate the SHAs, try
the compare API, divert to the fallback on 404, report other non-200
statuses, and catch any in-flight exception. -/
def show_repo_diff (repo old new : String) (env : DiffEnv) : DiffResult :=
  if !pyTruthy old || old.length < 7 || !pyTruthy new || new.length < 7 then
    .errorNote "Invalid commit SHAs for comparison"
  else
    match env.compare with
    | .raise m => .errorNote ("Error fetching diff: " ++ m)
    | .status c body =>
      if c = 404 then show_repo_diff_alternative repo old new env
      else .errorNote ("Failed to fetch diff: " ++ toString c ++ " - " ++ body)
    | .ok cd => .screen (diffTitle repo old new) (renderCompareText old new cd)

/-! ### The fingerprint store's add operation (`on_button_pressed`, configmanager.py:479-493) -/

/-- One persisted entry `{coordinate: {_comment, assets}}` (single-key
mapping per the store format). -/
structure RepoEntry where
  repo : String
  comment : String
  assets : List (String × Option String)
deriving DecidableEq

/-- The add operation (configmanager.py:484):
`[e for e in self.config if repo_name not in e] + [{repo_name: {...}}]` —
drop every entry keyed by the coordinate, then append the fresh entry. -/
def add_repo (config : List RepoEntry) (repo comment : String)
    (assets : List (String × Option String)) : List RepoEntry :=
  config.filter (fun e => !(e.repo == repo)) ++ [⟨repo, comment, assets⟩]

/-! ## Theorems -/

/-- C10: for every store contents and coordinate, the add operation first
removes every entry keyed by that coordinate and then appends the new entry
at the end, so the coordinate occurs exactly once afterwards (and holds the
new data), the new entry is in the last position, and all other entries are
preserved in their original order. -/
theorem add_repo_unique_coordinate (config : List RepoEntry) (repo comment : String)
    (assets : List (String × Option String)) :
    (add_repo config repo comment assets).countP (fun e => e.repo == repo) = 1 ∧
    (add_repo config repo comment assets).filter (fun e => e.repo == repo)
      = [⟨repo, comment, assets⟩] ∧
    (add_repo config repo comment assets).getLast? = some ⟨repo, comment, assets⟩ ∧
    (add_repo config repo comment assets).filter (fun e => !(e.repo == repo))
      = config.filter (fun e => !(e.repo == repo)) := by
  refine ⟨?_, ?_, ?_, ?_⟩
  · have h0 : (config.filter (fun e => !(e.repo == repo))).countP (fun e => e.repo == repo) = 0 := by
      apply List.countP_eq_zero.mpr
      intro a ha
      simp only [List.mem_filter, Bool.not_eq_true'] at ha
      simp [ha.2]
    simp [add_repo, List.countP_append, h0]
  · have h0 : (config.filter (fun e => !(e.repo == repo))).filter (fun e => e.repo == repo) = [] := by
      apply List.filter_eq_nil_iff.mpr
      intro a ha
      simp only [List.mem_filter, Bool.not_eq_true'] at ha
      simp [ha.2]
    simp [add_repo, List.filter_append, h0]
  · simp [add_repo]
  · simp [add_repo, List.filter_append, List.filter_filter]

/-- C2: in the drift check, an item with both SHAs present is classified
outdated exactly when the two SHAs are not the same commit under the
normalization rule (case-insensitively equal, or one a prefix of the
other); and the rule's three reference examples hold. -/
theorem drift_normalization_rule :
    (∀ idx it info o, it.fetch = .ok info → extract_sha it.comment = some o →
      pyTruthy o = true → pyTruthy info.sha = true →
      ((∃ r, classifyItem idx it = .outdated r) ↔ is_same_commit o info.sha = false)) ∧
    is_same_commit "abc1234" "ABC1234" = true ∧
    is_same_commit "abc1234" "abc1234567" = true ∧
    is_same_commit "abc1234" "def5678" = false := by
  refine ⟨?_, by decide, by decide, by decide⟩
  intro idx it info o hok hext hto htn
  unfold classifyItem
  rw [hok, hext]
  cases heq : o == info.sha with
  | true =>
    have : o = info.sha := eq_of_beq heq
    subst this
    simp [is_same_commit]
  | false =>
    simp only [pyTruthy] at hto htn
    simp only [bne, heq, hto, htn, Bool.not_false, Bool.and_self, Bool.true_and, if_true]
    cases h1 : pyLower o == pyLower info.sha <;>
      cases h2 : pyStartsWith info.sha o <;>
        cases h3 : pyStartsWith o info.sha <;>
          simp [is_same_commit, h1, h2, h3, pyTruthy, hto, htn]

/-- C1 counterexample: a tracked item whose stored annotation yields no old
SHA (no colon, so extraction returns `None`) and whose fetch succeeds is
counted as up-to-date by the reconciliation pass — the error counter stays
at zero — contradicting the claim that it is classified `CheckError` and
counted as an error. -/
theorem missing_sha_pass_counts :
    extract_sha "no canonical separators" = none ∧
    check_updates_worker [⟨"foo/bar", "no canonical separators",
      .ok ⟨"abc1234", "2024-01-01", "msg"⟩⟩] = ⟨1, 0, 0, []⟩ := by
  constructor
  · decide
  · decide

/-- C1 amended: for every tracked item whose fetch succeeds but whose
stored old SHA is missing (no extraction or empty) or whose fetched new
SHA is empty, the reconciliation pass classifies the item up-to-date — not
outdated and not as an error — and the pass continues with the remaining
items, the up-to-date counter incremented by one. -/
theorem missing_sha_counted_up_to_date (idx : Nat) (it : CheckItem) (info : CommitInfo)
    (hok : it.fetch = .ok info)
    (hmiss : pyTruthyOpt (extract_sha it.comment) = false ∨ pyTruthy info.sha = false) :
    classifyItem idx it = .upToDate ∧
    ∀ i s rest, runPass i s (it :: rest)
      = runPass (i + 1) { s with upToDate := s.upToDate + 1 } rest := by
  have hclass : classifyItem idx it = .upToDate := by
    unfold classifyItem
    rw [hok]
    cases hext : extract_sha it.comment with
    | none => rfl
    | some o =>
      rw [hext] at hmiss
      simp only [pyTruthyOpt] at hmiss
      rcases hmiss with h | h <;> simp [h]
  refine ⟨hclass, ?_⟩
  intro i s rest
  have hclass' : classifyItem i it = .upToDate := by
    unfold classifyItem at hclass ⊢
    rw [hok] at hclass ⊢
    cases hext : extract_sha it.comment with
    | none => rfl
    | some o =>
      rw [hext] at hclass
      rcases hmiss with h | h
      · rw [hext] at h
        simp only [pyTruthyOpt] at h
        simp [h]
      · simp [h]
  show runPass (i + 1) (stepItem i s it) rest = _
  rw [stepItem, hclass']

/-- Boolean test for the outdated classification. -/
def isOutdatedStatus : ItemStatus → Bool
  | .outdated _ => true
  | _ => false

/-- The code's nested conditionals classify an item outdated exactly when
it is genuinely drifted in the spec's sense. -/
lemma classify_outdated_eq (idx : Nat) (it : CheckItem) :
    isOutdatedStatus (classifyItem idx it) = genuinelyDrifted it := by
  unfold classifyItem genuinelyDrifted
  cases hf : it.fetch with
  | raise m => rfl
  | ok info =>
    cases hext : extract_sha it.comment with
    | none => rfl
    | some o =>
      cases heq : o == info.sha with
      | true =>
        have : o = info.sha := eq_of_beq heq
        subst this
        simp [is_same_commit, isOutdatedStatus]
      | false =>
        cases h1 : pyLower o == pyLower info.sha <;>
          cases h2 : pyStartsWith info.sha o <;>
            cases h3 : pyStartsWith o info.sha <;>
              cases ht1 : pyTruthy o <;> cases ht2 : pyTruthy info.sha <;>
                simp [is_same_commit, isOutdatedStatus, bne, heq, h1, h2, h3, ht1, ht2]

/-- Each pass step adds one to exactly one counter; the outdated counter
counts the genuinely drifted items. -/
lemma runPass_counts (items : List CheckItem) : ∀ i s,
    ((runPass i s items).upToDate + (runPass i s items).outdated + (runPass i s items).errors
      = s.upToDate + s.outdated + s.errors + items.length) ∧
    (runPass i s items).outdated = s.outdated + items.countP genuinelyDrifted := by
  induction items with
  | nil => intro i s; simp [runPass]
  | cons it rest ih =>
    intro i s
    obtain ⟨h1, h2⟩ := ih (i + 1) (stepItem i s it)
    have hg := (classify_outdated_eq i it).symm
    have hrun : runPass i s (it :: rest) = runPass (i + 1) (stepItem i s it) rest := rfl
    rw [hrun]
    rcases hc : classifyItem i it with _ | r | m <;>
      rw [hc] at hg <;>
        simp only [stepItem, hc, isOutdatedStatus] at h1 h2 hg ⊢ <;>
          simp [List.countP_cons, List.length_cons, hg] <;>
            constructor <;> omega

/-- Dict assignment with a fresh key appends. -/
lemma dictInsert_fresh (d : List (String × DriftRecord)) (k : String) (v : DriftRecord)
    (h : ∀ p ∈ d, p.1 ≠ k) : dictInsert d k v = d ++ [(k, v)] := by
  unfold dictInsert
  have hany : d.any (fun p => p.1 == k) = false := by
    rw [List.any_eq_false]
    intro p hp
    simpa using h p hp
  rw [hany]
  simp

/-- With pairwise-distinct coordinates the records dictionary grows by
exactly one entry per genuinely drifted item. -/
lemma runPass_records (items : List CheckItem) : ∀ i s,
    (∀ p ∈ s.records, p.1 ∉ items.map (fun it => it.repo)) →
    (items.map (fun it => it.repo)).Nodup →
    (runPass i s items).records.length = s.records.length + items.countP genuinelyDrifted := by
  induction items with
  | nil => intro i s _ _; simp [runPass]
  | cons it rest ih =>
    intro i s hfresh hnodup
    simp only [List.map_cons, List.nodup_cons] at hnodup
    have hg := (classify_outdated_eq i it).symm
    have hrun : runPass i s (it :: rest) = runPass (i + 1) (stepItem i s it) rest := rfl
    rw [hrun]
    rcases hc : classifyItem i it with _ | r | m
    · rw [hc] at hg
      simp only [isOutdatedStatus] at hg
      have hstep : stepItem i s it = { s with upToDate := s.upToDate + 1 } := by
        simp [stepItem, hc]
      rw [hstep, ih (i + 1) { s with upToDate := s.upToDate + 1 }
        (fun p hp hmem => hfresh p hp (by simp [hmem])) hnodup.2]
      simp [List.countP_cons, hg]
    · rw [hc] at hg
      simp only [isOutdatedStatus] at hg
      have hkey : ∀ p ∈ s.records, p.1 ≠ it.repo := fun p hp he => hfresh p hp (by simp [he])
      have hstep : stepItem i s it
          = { s with outdated := s.outdated + 1, records := s.records ++ [(it.repo, r)] } := by
        simp [stepItem, hc, dictInsert_fresh _ _ _ hkey]
      have hfresh' : ∀ p ∈ s.records ++ [(it.repo, r)], p.1 ∉ rest.map (fun it => it.repo) := by
        intro p hp
        rcases List.mem_append.mp hp with hin | hnew
        · exact fun hmem => hfresh p hin (by simp [hmem])
        · simp only [List.mem_singleton] at hnew
          subst hnew
          exact hnodup.1
      rw [hstep, ih (i + 1)
        { s with outdated := s.outdated + 1, records := s.records ++ [(it.repo, r)] }
        hfresh' hnodup.2]
      simp [List.countP_cons, hg]
      omega
    · rw [hc] at hg
      simp only [isOutdatedStatus] at hg
      have hstep : stepItem i s it = { s with errors := s.errors + 1 } := by
        simp [stepItem, hc]
      rw [hstep, ih (i + 1) { s with errors := s.errors + 1 }
        (fun p hp hmem => hfresh p hp (by simp [hmem])) hnodup.2]
      simp [List.countP_cons, hg]

/-- C4: over a collection of items with pairwise-distinct coordinates, one
reconciliation pass produces exactly as many drift records as there are
genuinely drifted items (old and new SHA both present and not the same
under the normalization rule), the outdated counter equals that number,
and the three counters sum to the number of items. -/
theorem reconciliation_pass_counts (items : List CheckItem)
    (hnodup : (items.map (fun it => it.repo)).Nodup) :
    (check_updates_worker items).upToDate + (check_updates_worker items).outdated
        + (check_updates_worker items).errors = items.length ∧
    (check_updates_worker items).records.length = items.countP genuinelyDrifted ∧
    (check_updates_worker items).outdated = items.countP genuinelyDrifted := by
  have h := runPass_counts items 0 ⟨0, 0, 0, []⟩
  have hr := runPass_records items 0 ⟨0, 0, 0, []⟩ (by intro p hp; cases hp) hnodup
  exact ⟨by simpa using h.1, by simpa using hr, by simpa using h.2⟩

/-- Witness for C4 at a concrete three-item collection containing one
drifted item, one up-to-date item and one failing fetch. -/
theorem reconciliation_pass_counts_witness :
    ((([⟨"a/one", "Last commit on main: aaaa111 @ t", .ok ⟨"bbbb222", "d", "m"⟩⟩,
        ⟨"b/two", "Last commit on main: cccc333 @ t", .ok ⟨"cccc333", "d", "m"⟩⟩,
        ⟨"c/three", "x", .raise "HTTP 500"⟩] : List CheckItem).map (fun it => it.repo)).Nodup) ∧
    ((check_updates_worker [⟨"a/one", "Last commit on main: aaaa111 @ t", .ok ⟨"bbbb222", "d", "m"⟩⟩,
        ⟨"b/two", "Last commit on main: cccc333 @ t", .ok ⟨"cccc333", "d", "m"⟩⟩,
        ⟨"c/three", "x", .raise "HTTP 500"⟩]).upToDate
      + (check_updates_worker [⟨"a/one", "Last commit on main: aaaa111 @ t", .ok ⟨"bbbb222", "d", "m"⟩⟩,
        ⟨"b/two", "Last commit on main: cccc333 @ t", .ok ⟨"cccc333", "d", "m"⟩⟩,
        ⟨"c/three", "x", .raise "HTTP 500"⟩]).outdated
      + (check_updates_worker [⟨"a/one", "Last commit on main: aaaa111 @ t", .ok ⟨"bbbb222", "d", "m"⟩⟩,
        ⟨"b/two", "Last commit on main: cccc333 @ t", .ok ⟨"cccc333", "d", "m"⟩⟩,
        ⟨"c/three", "x", .raise "HTTP 500"⟩]).errors
      = ([⟨"a/one", "Last commit on main: aaaa111 @ t", .ok ⟨"bbbb222", "d", "m"⟩⟩,
        ⟨"b/two", "Last commit on main: cccc333 @ t", .ok ⟨"cccc333", "d", "m"⟩⟩,
        ⟨"c/three", "x", .raise "HTTP 500"⟩] : List CheckItem).length) :=
  ⟨by decide,
   (reconciliation_pass_counts
     [⟨"a/one", "Last commit on main: aaaa111 @ t", .ok ⟨"bbbb222", "d", "m"⟩⟩,
      ⟨"b/two", "Last commit on main: cccc333 @ t", .ok ⟨"cccc333", "d", "m"⟩⟩,
      ⟨"c/three", "x", .raise "HTTP 500"⟩] (by decide)).1⟩

/-- `dropWhile` passes over a leading block and stops no later than a
failing element. -/
lemma dropWhile_append_not (p : Char → Bool) (a b : List Char) (c : Char) (hc : p c = false) :
    (a ++ c :: b).dropWhile p = a.dropWhile p ++ c :: b := by
  induction a with
  | nil => simp [List.dropWhile_cons, hc]
  | cons x xs ih =>
    by_cases hx : p x
    · simp [List.dropWhile_cons, hx, ih]
    · simp [List.dropWhile_cons, hx]

/-- `dropWhile` is the identity when no element satisfies the predicate. -/
lemma dropWhile_eq_self_of_none (p : Char → Bool) (l : List Char)
    (h : ∀ x ∈ l, p x = false) : l.dropWhile p = l := by
  cases l with
  | nil => rfl
  | cons x xs => simp [List.dropWhile_cons, h x (by simp)]

/-- Everything after the first colon, when the part before it has none. -/
lemma afterFirstColon_append (pre r : List Char) (h : ':' ∉ pre) :
    afterFirstColon (pre ++ ':' :: r) = r := by
  unfold afterFirstColon
  rw [dropWhile_append_not _ _ _ _ (by simp)]
  have hnil : pre.dropWhile (fun c => c ≠ ':') = [] := by
    rw [List.dropWhile_eq_nil_iff]
    intro x hx
    simp only [ne_eq, decide_eq_true_eq]
    exact fun he => h (he ▸ hx)
  rw [hnil]
  simp

/-- Right-stripping reaches at most the last `'@'`. -/
lemma rstripL_append_at (X B : List Char) :
    rstripL (X ++ '@' :: B) = X ++ '@' :: rstripL B := by
  unfold rstripL
  rw [List.reverse_append, List.reverse_cons,
    show B.reverse ++ ['@'] ++ X.reverse = B.reverse ++ '@' :: X.reverse by simp,
    dropWhile_append_not _ _ _ _ (by decide)]
  simp

/-- The part before `" @"` of `sha ++ " @" ++ z` is `sha` when `sha` has no
whitespace. -/
lemma takeBeforeSpAt_append (sha z : List Char) (h : ∀ c ∈ sha, c.isWhitespace = false) :
    takeBeforeSpAt (sha ++ ' ' :: '@' :: z) = sha := by
  induction sha with
  | nil => simp [takeBeforeSpAt]
  | cons c t ih =>
    have hc : (c = ' ') = False := by
      simp only [eq_iff_iff, iff_false]
      intro he
      have := h c (by simp)
      rw [he] at this
      exact absurd this (by decide)
    cases t with
    | nil => simp [takeBeforeSpAt, hc]
    | cons d t' =>
      have harr : (c :: d :: t') ++ ' ' :: '@' :: z = c :: d :: (t' ++ ' ' :: '@' :: z) := by
        simp
      rw [harr, takeBeforeSpAt, if_neg (by simp [hc]), ← List.cons_append,
        ih (fun x hx => h x (by simp [hx]))]

/-- Stripping a whitespace-free list is the identity. -/
lemma stripL_eq_self (l : List Char) (h : ∀ c ∈ l, c.isWhitespace = false) :
    stripL l = l := by
  unfold stripL lstripL rstripL
  have h1 : List.dropWhile isWS l = l :=
    dropWhile_eq_self_of_none _ _ (fun x hx => by simp [isWS, h x hx])
  rw [h1]
  have h2 : List.dropWhile isWS l.reverse = l.reverse :=
    dropWhile_eq_self_of_none _ _ (fun x hx => by simp [isWS, h x (List.mem_reverse.mp hx)])
  rw [h2, List.reverse_reverse]

/-- C5 counterexample: the annotation `"bad"` is malformed (it has no
colon, hence none of the canonical separators) and nonempty, and the
update worker's tokenize extractor `old_comment.split()[3]` raises an
uncaught `IndexError` on it — refuting the claim that the fallback
extractor never raises. -/
theorem update_extract_raises_on_malformed :
    ("bad".data.contains ':') = false ∧
    update_worker_extract "bad" = .error "IndexError" := by
  constructor
  · decide
  · rfl

/-- C5 amended: in the reconciliation pass, extraction from a canonical
annotation `"Last commit on <branch>: <sha> @ <timestamp>"` returns the
embedded sha exactly (for a colon-free branch and a nonempty,
whitespace-free sha), and extraction from an annotation without a colon
returns `None` without raising; the update worker's tokenize extractor,
in contrast, raises `IndexError` on any nonempty annotation with fewer
than four whitespace-separated tokens. -/
theorem annotation_sha_extraction :
    (∀ branch sha ts : List Char,
      ':' ∉ branch → sha ≠ [] → (∀ c ∈ sha, c.isWhitespace = false) →
      extractShaChars
          ("Last commit on ".data ++ branch ++ ':' :: ' ' :: (sha ++ ' ' :: '@' :: ' ' :: ts))
        = some sha) ∧
    (∀ cs : List Char, ':' ∉ cs → extractShaChars cs = none) ∧
    (∀ s : String, s ≠ "" → (pySplitWs s.data).length ≤ 3 →
      update_worker_extract s = .error "IndexError") := by
  refine ⟨?_, ?_, ?_⟩
  · intro branch sha ts hb hne hws
    unfold extractShaChars
    have hmem : ':' ∈ "Last commit on ".data ++ branch
        ++ ':' :: ' ' :: (sha ++ ' ' :: '@' :: ' ' :: ts) := by
      refine List.mem_append.mpr (Or.inr ?_)
      exact List.mem_cons_self _ _
    rw [if_pos (by rw [List.contains_eq_any_beq]; exact List.any_beq.mpr hmem)]
    have hpre : ':' ∉ "Last commit on ".data ++ branch := by
      intro hx
      rcases List.mem_append.mp hx with h1 | h2
      · exact absurd h1 (by decide)
      · exact hb h2
    have hshape : "Last commit on ".data ++ branch
        ++ ':' :: ' ' :: (sha ++ ' ' :: '@' :: ' ' :: ts)
        = ("Last commit on ".data ++ branch)
          ++ ':' :: (' ' :: (sha ++ ' ' :: '@' :: ' ' :: ts)) := by
      simp
    rw [hshape, afterFirstColon_append _ _ hpre]
    obtain ⟨c, t, rfl⟩ : ∃ c t, sha = c :: t := by
      cases sha with
      | nil => exact absurd rfl hne
      | cons c t => exact ⟨c, t, rfl⟩
    have hcws : isWS c = false := by simp [isWS, hws c (by simp)]
    have hl : lstripL (' ' :: ((c :: t) ++ ' ' :: '@' :: ' ' :: ts))
        = (c :: t) ++ ' ' :: '@' :: ' ' :: ts := by
      simp only [lstripL, List.cons_append, List.dropWhile_cons, hcws]
      simp [show isWS ' ' = true from by decide]
    have hstrip : stripL (' ' :: ((c :: t) ++ ' ' :: '@' :: ' ' :: ts))
        = (c :: t) ++ ' ' :: '@' :: rstripL (' ' :: ts) := by
      unfold stripL
      rw [hl]
      rw [show (c :: t) ++ ' ' :: '@' :: ' ' :: ts
          = ((c :: t) ++ [' ']) ++ '@' :: ' ' :: ts from by simp]
      rw [rstripL_append_at]
      simp
    rw [hstrip, takeBeforeSpAt_append _ _ hws, stripL_eq_self _ hws]
  · intro cs h
    unfold extractShaChars
    rw [if_neg ?_]
    rw [List.contains_eq_any_beq]
    intro hx
    exact h (List.any_beq.mp hx)
  · intro s hs hlen
    unfold update_worker_extract
    rw [if_neg hs, List.getElem?_eq_none hlen]

/-- Witness for the canonical-extraction part of C5's amended claim at the
concrete annotation for branch `main`, sha `abc1234`, timestamp
`2024-01-01`. -/
theorem annotation_sha_extraction_witness :
    (':' ∉ "main".data) ∧
    extractShaChars ("Last commit on ".data ++ "main".data
        ++ ':' :: ' ' :: ("abc1234".data ++ ' ' :: '@' :: ' ' :: "2024-01-01".data))
      = some "abc1234".data :=
  ⟨by decide, annotation_sha_extraction.1 "main".data "abc1234".data "2024-01-01".data
    (by decide) (by decide) (by decide)⟩

set_option maxRecDepth 400000

/-- `update` distributes over byte-sequence concatenation. -/
lemma sha256Update_append (ctx : Sha256Ctx) (a b : List Nat) :
    sha256Update ctx (a ++ b) = sha256Update (sha256Update ctx a) b :=
  List.foldl_append absorbByte ctx a b

/-- Folding `update` over chunks is one `update` of their concatenation. -/
lemma foldl_update_join (chunks : List (List Nat)) : ∀ ctx : Sha256Ctx,
    chunks.foldl sha256Update ctx = sha256Update ctx chunks.flatten := by
  induction chunks with
  | nil => intro ctx; rfl
  | cons c cs ih =>
    intro ctx
    rw [List.foldl_cons, ih, List.flatten_cons, sha256Update_append]

/-- Chunking with positive chunk size and enough fuel loses no bytes. -/
lemma chunksGo_join {α : Type} (n : Nat) (hn : 0 < n) : ∀ fuel (l : List α),
    l.length ≤ fuel → (chunksGo n fuel l).flatten = l := by
  intro fuel
  induction fuel with
  | zero =>
    intro l hl
    rw [List.length_eq_zero.mp (Nat.le_zero.mp hl)]
    rfl
  | succ fuel ih =>
    intro l hl
    cases l with
    | nil => rfl
    | cons x xs =>
      have hlen2 : ((x :: xs).drop n).length ≤ fuel := by
        simp only [List.length_drop, List.length_cons] at *
        omega
      rw [chunksGo, List.flatten_cons, ih ((x :: xs).drop n) hlen2, List.take_append_drop]
      exact List.cons_ne_nil x xs

/-- C3: the streaming hasher is deterministic — for every byte sequence and
every positive constant chunk size, folding the chunks into the SHA-256
accumulator yields the same hex digest as hashing the whole sequence at
once; and hashing an empty stream yields the SHA-256 empty-input digest. -/
theorem streaming_hash_deterministic :
    (∀ chunkSize data, 0 < chunkSize →
      fetch_stream_hash chunkSize data = sha256Hex data) ∧
    fetch_stream_hash 1024 []
      = "e3b0c44298fc1c149afbf4c8996fb92427ae41e4649b934ca495991b7852b855" := by
  constructor
  · intro n data hn
    unfold fetch_stream_hash sha256Hex chunksOf
    rw [foldl_update_join, chunksGo_join n hn data.length data (Nat.le_refl _)]
  · decide

/-- Witness for C3 at chunk size 4 and the byte sequence `[104, 105]`. -/
theorem streaming_hash_deterministic_witness :
    0 < 4 ∧ fetch_stream_hash 4 [104, 105] = sha256Hex [104, 105] :=
  ⟨by decide, streaming_hash_deterministic.1 4 [104, 105] (by decide)⟩

/-- Witness for C1's amended claim at a concrete item with no extractable
old SHA. -/
theorem missing_sha_counted_up_to_date_witness :
    ((⟨"foo/bar", "no colon", .ok ⟨"abc1234", "d", "m"⟩⟩ : CheckItem).fetch
        = .ok ⟨"abc1234", "d", "m"⟩) ∧
    classifyItem 0 ⟨"foo/bar", "no colon", .ok ⟨"abc1234", "d", "m"⟩⟩ = .upToDate :=
  ⟨rfl, (missing_sha_counted_up_to_date 0
    ⟨"foo/bar", "no colon", .ok ⟨"abc1234", "d", "m"⟩⟩ ⟨"abc1234", "d", "m"⟩ rfl
    (Or.inl (by decide))).1⟩

/-- Witness for C2 at a genuinely drifted concrete item. -/
theorem drift_normalization_rule_witness :
    ∃ r, classifyItem 0 ⟨"foo/bar", "Last commit on main: aaaa111 @ t",
      .ok ⟨"bbbb222", "d", "m"⟩⟩ = .outdated r :=
  (drift_normalization_rule.1 0
    ⟨"foo/bar", "Last commit on main: aaaa111 @ t", .ok ⟨"bbbb222", "d", "m"⟩⟩
    ⟨"bbbb222", "d", "m"⟩ "aaaa111" rfl (by decide) (by decide) (by decide)).mpr (by decide)

/-- C6: a batch verification over M assets returns exactly M per-asset
results; when the i-th asset's stream raises, the i-th result carries
`hashMatch = false` and the error text (the exception never crosses the
per-asset boundary), and every other result equals the per-asset result of
its own input alone, unaffected by the failure. -/
theorem batch_verification_isolation (spec : List (String × Option String))
    (assets : List (GAsset × StreamOutcome)) (i : Nat) (hi : i < assets.length)
    (msg : String) (hfail : (assets.get ⟨i, hi⟩).2 = .raise msg) :
    (batchDownload spec assets).length = assets.length ∧
    ((batchDownload spec assets).get
        ⟨i, by rw [batchDownload, List.length_map]; exact hi⟩).hashMatch = some false ∧
    ((batchDownload spec assets).get
        ⟨i, by rw [batchDownload, List.length_map]; exact hi⟩).error = some msg ∧
    (∀ j (hj : j < assets.length), j ≠ i →
      (batchDownload spec assets).get ⟨j, by rw [batchDownload, List.length_map]; exact hj⟩
        = download_asset_and_hash (assets.get ⟨j, hj⟩).1 (assets.get ⟨j, hj⟩).2
            (assetsGet spec (assets.get ⟨j, hj⟩).1.name)) := by
  have hget : ∀ (k : Nat) (hk : k < assets.length),
      (batchDownload spec assets).get ⟨k, by rw [batchDownload, List.length_map]; exact hk⟩
        = download_asset_and_hash (assets.get ⟨k, hk⟩).1 (assets.get ⟨k, hk⟩).2
            (assetsGet spec (assets.get ⟨k, hk⟩).1.name) := by
    intro k hk
    simp [batchDownload, List.getElem_map]
  refine ⟨by simp [batchDownload], ?_, ?_, fun j hj _ => hget j hj⟩
  · rw [hget i hi, hfail]
    rfl
  · rw [hget i hi, hfail]
    rfl

/-- Witness for C6 on a two-asset batch whose second stream raises. -/
theorem batch_verification_isolation_witness :
    (1 < ([(⟨"a.dll", "u1"⟩, .bytes [1, 2]), (⟨"b.dll", "u2"⟩, .raise "timeout")]
      : List (GAsset × StreamOutcome)).length) ∧
    ((batchDownload [("a.dll", some "x")]
        [(⟨"a.dll", "u1"⟩, .bytes [1, 2]), (⟨"b.dll", "u2"⟩, .raise "timeout")]).get
      ⟨1, by rw [batchDownload, List.length_map]; exact by decide⟩).error = some "timeout" :=
  ⟨by decide,
   (batch_verification_isolation [("a.dll", some "x")]
     [(⟨"a.dll", "u1"⟩, .bytes [1, 2]), (⟨"b.dll", "u2"⟩, .raise "timeout")] 1
     (by decide) "timeout" rfl).2.2.1⟩

/-- The `error` flag of `process_repo` is set exactly when the item raised
or some asset has a truthy recorded digest differing from the observed
digest. -/
lemma process_repo_error_eq (entry : ModEntry) (env : RepoEnv) :
    process_repo_error entry env
      = (env.processException.isSome || digestMismatch entry env) := by
  unfold process_repo_error digestMismatch batchDownload
  cases env.processException with
  | some m => rfl
  | none =>
    simp only [Option.isSome_none, Bool.false_or]
    induction env.assets with
    | nil => rfl
    | cons p rest ih =>
      simp only [List.map_cons, List.any_cons, ih]
      congr 1
      cases hget : assetsGet entry.assetSpec p.1.name <;> cases hstream : p.2 <;>
        simp [download_asset_and_hash, observedHash, hget]

/-- C7: the batch verification entry point exits non-zero exactly when at
least one item failed to process or at least one asset's observed digest
differs from its recorded (truthy) expected digest, and exits zero exactly
when every item processes cleanly with all compared digests matching. -/
theorem batch_exit_status (runs : List (ModEntry × RepoEnv)) :
    (mainExitCode runs ≠ 0
      ↔ ∃ r ∈ runs, r.2.processException.isSome = true ∨ digestMismatch r.1 r.2 = true) ∧
    (mainExitCode runs = 0
      ↔ ∀ r ∈ runs, r.2.processException = none ∧ digestMismatch r.1 r.2 = false) := by
  have hm : mainExitCode runs
      = if runs.any (fun r => r.2.processException.isSome || digestMismatch r.1 r.2) then 1
        else 0 := by
    have hfun : (fun (r : ModEntry × RepoEnv) => process_repo_error r.1 r.2)
        = fun r => r.2.processException.isSome || digestMismatch r.1 r.2 := by
      funext r
      exact process_repo_error_eq r.1 r.2
    unfold mainExitCode
    rw [hfun]
  rw [hm]
  cases h : runs.any (fun r => r.2.processException.isSome || digestMismatch r.1 r.2) with
  | false =>
    rw [List.any_eq_false] at h
    have hval : (if (false : Bool) = true then (1 : Nat) else 0) = 0 := by simp
    rw [hval]
    constructor
    · constructor
      · intro h0
        exact absurd rfl h0
      · rintro ⟨r, hr, hor⟩
        have hnr := h r hr
        simp only [Bool.or_eq_true, not_or, Bool.not_eq_true] at hnr
        rcases hor with ho | ho
        · exact (Bool.false_ne_true (hnr.1.symm.trans ho)).elim
        · exact (Bool.false_ne_true (hnr.2.symm.trans ho)).elim
    · constructor
      · intro _ r hr
        have hnr := h r hr
        simp only [Bool.or_eq_true, not_or, Bool.not_eq_true] at hnr
        refine ⟨?_, hnr.2⟩
        cases hopt : r.2.processException with
        | none => rfl
        | some m =>
          have hs := hnr.1
          rw [hopt] at hs
          simp at hs
      · intro _
        rfl
  | true =>
    rw [List.any_eq_true] at h
    have hval : (if (true : Bool) = true then (1 : Nat) else 0) = 1 := by simp
    rw [hval]
    obtain ⟨r, hr, hor⟩ := h
    rw [Bool.or_eq_true] at hor
    constructor
    · exact ⟨fun _ => ⟨r, hr, hor⟩, fun _ => one_ne_zero⟩
    · constructor
      · intro h10
        exact absurd h10 one_ne_zero
      · intro hall
        obtain ⟨h1, h2⟩ := hall r hr
        rcases hor with ho | ho
        · rw [h1] at ho
          exact absurd ho (by simp)
        · rw [h2] at ho
          exact absurd ho (by simp)

/-- Witness for C7: a run whose one item has a recorded digest that the
failed stream cannot match exits non-zero. -/
theorem batch_exit_status_witness :
    mainExitCode [(⟨"foo/bar", [("a.dll", some "x")]⟩,
      ⟨none, [(⟨"a.dll", "u"⟩, .raise "boom")]⟩)] ≠ 0 :=
  (batch_exit_status [(⟨"foo/bar", [("a.dll", some "x")]⟩,
      ⟨none, [(⟨"a.dll", "u"⟩, .raise "boom")]⟩)]).1.mpr
    ⟨(⟨"foo/bar", [("a.dll", some "x")]⟩, ⟨none, [(⟨"a.dll", "u"⟩, .raise "boom")]⟩),
      by simp, Or.inr (by decide)⟩

/-- C8: when the primary commit-range comparison reports 404, the change
summarizer takes the fallback path, and the fallback never fails the
overall operation: an exception in flight inside the fallback body is
converted by its handler into a non-fatal error notification. -/
theorem fallback_on_not_found (repo old new : String) (env : DiffEnv) (body : String)
    (h7 : 7 ≤ old.length) (h7' : 7 ≤ new.length)
    (h404 : env.compare = .status 404 body) :
    show_repo_diff repo old new env = show_repo_diff_alternative repo old new env ∧
    (∀ m, showRepoDiffAltBody repo old new env = .error m →
      show_repo_diff_alternative repo old new env
        = .errorNote ("Error fetching commit information: " ++ m)) := by
  constructor
  · have hto : pyTruthy old = true := by
      rw [pyTruthy, bne_iff_ne]
      intro he
      rw [he] at h7
      simp [String.length] at h7
    have htn : pyTruthy new = true := by
      rw [pyTruthy, bne_iff_ne]
      intro he
      rw [he] at h7'
      simp [String.length] at h7'
    unfold show_repo_diff
    rw [h404, if_neg ?_]
    · simp
    · simp [hto, htn]
      omega
  · intro m hm
    unfold show_repo_diff_alternative
    rw [hm]

/-- Witness for C8 at a concrete 404 environment whose old-commit fetch
raises inside the fallback. -/
theorem fallback_on_not_found_witness :
    7 ≤ ("aaaa1111" : String).length ∧
    show_repo_diff "foo/bar" "aaaa1111" "bbbb2222"
        ⟨.status 404 "nf", .raise "boom", .ok ⟨"d", "m"⟩⟩
      = show_repo_diff_alternative "foo/bar" "aaaa1111" "bbbb2222"
        ⟨.status 404 "nf", .raise "boom", .ok ⟨"d", "m"⟩⟩ :=
  ⟨by decide, (fallback_on_not_found "foo/bar" "aaaa1111" "bbbb2222"
    ⟨.status 404 "nf", .raise "boom", .ok ⟨"d", "m"⟩⟩ "nf"
    (by decide) (by decide) rfl).1⟩

/-- Every event of `netCallsAfterReleases` is a network call. -/
lemma netCallsAfterReleases_net (n : Nat) :
    ∀ x ∈ netCallsAfterReleases n, ∃ tag, x = .net tag := by
  intro x hx
  unfold netCallsAfterReleases at hx
  rcases List.mem_append.mp hx with h | h
  · obtain ⟨i, _, rfl⟩ := List.mem_map.mp h
    exact ⟨_, rfl⟩
  · rcases List.mem_cons.mp h with rfl | h2
    · exact ⟨_, rfl⟩
    · rcases List.mem_cons.mp h2 with rfl | h3
      · exact ⟨_, rfl⟩
      · cases h3

/-- Every event of the try body is a network call. -/
lemma tryBodyTrace_net (e : LimiterEnv) : ∀ x ∈ tryBodyTrace e, ∃ tag, x = .net tag := by
  intro x hx
  unfold tryBodyTrace at hx
  rcases List.mem_cons.mp hx with rfl | h
  · exact ⟨_, rfl⟩
  · cases h1 : e.repoDataRaises <;> rw [h1] at h <;>
      simp only [eq_self_iff_true, Bool.false_eq_true, if_true, if_false] at h
    · rcases List.mem_cons.mp h with rfl | h2
      · exact ⟨_, rfl⟩
      · cases hlat : e.releasesLatestRaises <;> rw [hlat] at h2 <;>
          simp only [eq_self_iff_true, Bool.false_eq_true, if_true, if_false] at h2
        · exact netCallsAfterReleases_net _ x h2
        · rcases List.mem_cons.mp h2 with rfl | h3
          · exact ⟨_, rfl⟩
          · cases hall : e.releasesAllRaises <;> rw [hall] at h3 <;>
              simp only [eq_self_iff_true, Bool.false_eq_true, if_true, if_false] at h3
            · exact netCallsAfterReleases_net _ x h3
            · cases h3
    · cases h

/-- C9: every `process_repo` execution keeps the limiter balanced: acquire
and release counts agree on every exit path, and on every run that reaches
the try body the trace is exactly one acquire, then network calls only,
then one release. -/
theorem limiter_balanced (keys : List String) (e : LimiterEnv) :
    ((process_repo_trace keys e).count .acq = (process_repo_trace keys e).count .rel) ∧
    (keys ≠ [] → ∃ mid, process_repo_trace keys e = .acq :: (mid ++ [.rel]) ∧
      (∀ x ∈ mid, ∃ tag, x = .net tag)) := by
  cases keys with
  | nil => exact ⟨rfl, fun h => absurd rfl h⟩
  | cons k ks =>
    have hmid := tryBodyTrace_net e
    have hacq : (tryBodyTrace e).count SemOp.acq = 0 := by
      rw [List.count_eq_zero]
      intro hmem
      obtain ⟨tag, htag⟩ := hmid _ hmem
      cases htag
    have hrel : (tryBodyTrace e).count SemOp.rel = 0 := by
      rw [List.count_eq_zero]
      intro hmem
      obtain ⟨tag, htag⟩ := hmid _ hmem
      cases htag
    constructor
    · show (SemOp.acq :: (tryBodyTrace e ++ [SemOp.rel])).count .acq
        = (SemOp.acq :: (tryBodyTrace e ++ [SemOp.rel])).count .rel
      simp [List.count_cons, List.count_append, hacq, hrel]
    · exact fun _ => ⟨tryBodyTrace e, rfl, hmid⟩

/-- Witness for C9 at a concrete one-item run with two assets. -/
theorem limiter_balanced_witness :
    (["foo/bar"] : List String) ≠ [] ∧
    ∃ mid, process_repo_trace ["foo/bar"] ⟨false, false, false, 2⟩
      = .acq :: (mid ++ [.rel]) ∧ (∀ x ∈ mid, ∃ tag, x = .net tag) :=
  ⟨by decide, (limiter_balanced ["foo/bar"] ⟨false, false, false, 2⟩).2 (by decide)⟩

end CarbonRepo
